import Mathlib

/-!
Verification of the Mint task-queue driver (src/mint): shallow embedding of
the pure core of `agents.py` and `pipeline.py`, together with theorems that
settle the specification claims about the Summarizer, the Outcome Classifier,
the Execution Engine and the Queue Driver loop.

External effects (the spawned agent process, the session log store and the
queue store) are modelled as explicit oracles / event traces; every string
operation of the Python source is re-implemented on `List Char` with Python
semantics (whitespace sets, `str.split`, `str.strip`, `str.replace`,
substring containment, truncation).
-/

/-- Python whitespace predicate: the characters `str.split`, `str.strip` and
friends treat as whitespace (space, tab, newline, carriage return, vertical
tab, form feed). -/
def pyWs (c : Char) : Bool :=
  c == '\x20' || c == '\t' || c == '\n' || c == '\r' || c == '\x0b' || c == '\x0c'

/-- Membership of a needle inside a haystack, Python's `needle in hay` for
strings, on character lists. -/
def containsSubL (needle : List Char) : List Char → Bool
  | [] => needle.isPrefixOf []
  | c :: t => needle.isPrefixOf (c :: t) || containsSubL needle t

/-- Python `sub in s` on strings. -/
def pyContains (s sub : String) : Bool :=
  containsSubL sub.data s.data

/-- Python `str.lower()` (ASCII case folding, which is all the source relies
on). -/
def pyLowerS (s : String) : String :=
  ⟨s.data.map Char.toLower⟩

/-- Python `str.rstrip()` on character lists: drop trailing whitespace. -/
def pyRstripL : List Char → List Char
  | [] => []
  | c :: cs =>
    match pyRstripL cs with
    | [] => if pyWs c then [] else [c]
    | r => c :: r

/-- Python `str.strip()` on character lists: drop leading and trailing
whitespace. -/
def pyStripL (l : List Char) : List Char :=
  pyRstripL (l.dropWhile pyWs)

/-- Python `str.strip()` on strings. -/
def pyStrip (s : String) : String :=
  ⟨pyStripL s.data⟩

/-- Raw word splitter behind Python `str.split()` with no separator: cut at
every whitespace character, so whitespace runs leave empty chunks behind that
`pyWords` filters away. -/
def words : List Char → List (List Char)
  | [] => []
  | c :: cs =>
    if pyWs c then [] :: words cs
    else
      match words cs with
      | [] => [[c]]
      | w :: ws => (c :: w) :: ws

/-- Python `str.split()` with no separator, on character lists: the maximal
whitespace-free runs, in order. -/
def pyWords (l : List Char) : List (List Char) :=
  (words l).filter (fun w => !w.isEmpty)

/-- Python `str.split()` with no separator, on strings. -/
def pyWordsS (s : String) : List String :=
  (pyWords s.data).map (fun w => ⟨w⟩)

/-- Python `" ".join(ws)` on character lists. -/
def joinSp : List (List Char) → List Char
  | [] => []
  | [w] => w
  | w :: ws => w ++ '\x20' :: joinSp ws

/-- The whitespace normalisation `" ".join(s.split())` used by
`SummaryAgent.summarize`: collapse whitespace runs to single spaces and trim
both ends. -/
def collapseL (l : List Char) : List Char :=
  joinSp (pyWords l)

/-- Fuel-indexed core of Python `str.replace` on character lists: at every
position, a match of the (non-empty) pattern is replaced and skipped,
otherwise one character is kept; the fuel only bounds the recursion and is
never exhausted when it starts at the input length. -/
def pyReplAux (pat rep : List Char) : Nat → List Char → List Char
  | 0, s => s
  | n + 1, s =>
    match s with
    | [] => []
    | c :: cs =>
      if pat ≠ [] ∧ pat.isPrefixOf (c :: cs) then
        rep ++ pyReplAux pat rep n ((c :: cs).drop pat.length)
      else
        c :: pyReplAux pat rep n cs

/-- Python `str.replace(pat, rep)` on character lists (all occurrences,
scanned left to right, replacements not rescanned; the source only uses
non-empty patterns). -/
def pyReplaceL (pat rep s : List Char) : List Char :=
  pyReplAux pat rep s.length s

/-- Python `s.replace(pat, rep)` on strings. -/
def pyReplace (s pat rep : String) : String :=
  ⟨pyReplaceL pat.data rep.data s.data⟩

/-- The ellipsis marker appended by the summarizer when it truncates. -/
def dots : List Char := ['.', '.', '.']

namespace SummaryAgent

/-- Core of `SummaryAgent.summarize` on character lists: collapse whitespace,
return the result unchanged when it fits in 96 characters, otherwise keep the
first 93 characters, trim trailing whitespace and append `"..."`. -/
def summarizeL (p : List Char) : List Char :=
  let clean := collapseL p
  if clean.isEmpty then []
  else if clean.length ≤ 96 then clean
  else pyRstripL (clean.take 93) ++ dots

/-- Embedding of `SummaryAgent.summarize` from `src/mint/agents.py`. -/
def summarize (p : String) : String :=
  ⟨summarizeL p.data⟩

end SummaryAgent

namespace StatusAgent

/-- Embedding of `StatusAgent.decide` from `src/mint/agents.py`: non-zero return codes are
Blocked; otherwise the lowercased output is scanned for the three status
markers in fixed priority order, defaulting to Completed. -/
def decide (return_code : Int) (output : String) : String :=
  if return_code ≠ 0 then "Blocked"
  else
    let normalized := pyLowerS output
    if pyContains normalized "status: testing" then "Testing"
    else if pyContains normalized "status: blocked" then "Blocked"
    else if pyContains normalized "status: completed" then "Completed"
    else "Completed"

end StatusAgent

/-- Items of the small regular-expression language needed by the session-id
patterns of `StatusAgent.extract_session_id`: literal characters (matched
case-insensitively, as the source compiles every pattern with `IGNORECASE`),
character classes with the quantifiers the patterns use, and the word
boundary. Every quantifier in the source patterns applies to a character
class, so quantified items carry the class directly. -/
inductive RItem where
  | lit (c : Char)
  | cls (p : Char → Bool)
  | optC (p : Char → Bool)
  | starC (p : Char → Bool)
  | plusC (p : Char → Bool)
  | exactC (n : Nat) (p : Char → Bool)
  | atLeastC (n : Nat) (p : Char → Bool)
  | wb

/-- One source pattern: the items before the single capture group, the items
of the capture group, and the items after it. Every pattern in the source has
exactly one capture group. -/
structure Pat where
  pre : List RItem
  sub : List RItem
  post : List RItem

/-- Word characters for the regex word boundary. -/
def isWordChar (c : Char) : Bool :=
  c.isAlpha || c.isDigit || c == '_'

/-- Word-character test on an optional character (`none` borders count as
non-word). -/
def isWordOpt : Option Char → Bool
  | none => false
  | some c => isWordChar c

/-- Descending range `[hi, hi-1, ..., lo]` (empty when `lo > hi`), the order
in which a greedy quantifier tries consumption lengths. -/
def descRange (hi lo : Nat) : List Nat :=
  (List.range' lo (hi + 1 - lo)).reverse

/-- Previous character after consuming `k` characters of `l` (used to keep
word-boundary context). -/
def prevAfter (prev : Option Char) (l : List Char) (k : Nat) : Option Char :=
  if k = 0 then prev else some (l.getD (k - 1) 'x')

/-- Backtracking matcher for a sequence of items: all ways to match the items
against a prefix of `l`, each as (new previous character, remaining input),
listed in the priority order of a greedy backtracking engine (first result =
the match Python `re` commits to). `prev` is the character just before the
current position, for word boundaries. -/
def matchSeg : List RItem → Option Char → List Char → List (Option Char × List Char)
  | [], prev, l => [(prev, l)]
  | .lit c :: rest, _, l =>
    match l with
    | [] => []
    | d :: l2 => if d.toLower == c.toLower then matchSeg rest (some d) l2 else []
  | .cls p :: rest, _, l =>
    match l with
    | [] => []
    | d :: l2 => if p d then matchSeg rest (some d) l2 else []
  | .optC p :: rest, prev, l =>
    (match l with
     | d :: l2 => if p d then matchSeg rest (some d) l2 else []
     | [] => []) ++ matchSeg rest prev l
  | .starC p :: rest, prev, l =>
    (descRange (l.takeWhile p).length 0).flatMap fun k =>
      matchSeg rest (prevAfter prev l k) (l.drop k)
  | .plusC p :: rest, prev, l =>
    (descRange (l.takeWhile p).length 1).flatMap fun k =>
      matchSeg rest (prevAfter prev l k) (l.drop k)
  | .exactC n p :: rest, prev, l =>
    if n ≤ (l.takeWhile p).length then matchSeg rest (prevAfter prev l n) (l.drop n) else []
  | .atLeastC n p :: rest, prev, l =>
    (descRange (l.takeWhile p).length n).flatMap fun k =>
      matchSeg rest (prevAfter prev l k) (l.drop k)
  | .wb :: rest, prev, l =>
    if isWordOpt prev != isWordOpt l.head? then matchSeg rest prev l else []

/-- All captures of a pattern matching at the current position, in
backtracking priority order: pre-context, then capture group, then
post-context; the capture is the segment the group consumed. -/
def matchPat (pt : Pat) (prev : Option Char) (l : List Char) : List (List Char) :=
  (matchSeg pt.pre prev l).flatMap fun s1 =>
    (matchSeg pt.sub s1.1 s1.2).flatMap fun s2 =>
      (matchSeg pt.post s2.1 s2.2).map fun _ =>
        s1.2.take (s1.2.length - s2.2.length)

/-- Search of `re.search` for one pattern: try each start position left to right, and
at the first position where the pattern matches return the capture the
backtracking order commits to. -/
def reSearchFrom (pt : Pat) : Option Char → List Char → Option (List Char)
  | prev, [] =>
    match matchPat pt prev [] with
    | cap :: _ => some cap
    | [] => none
  | prev, c :: l2 =>
    match matchPat pt prev (c :: l2) with
    | cap :: _ => some cap
    | [] => reSearchFrom pt (some c) l2

/-- String-level `re.search(pattern, output, IGNORECASE)` returning `group(1)`. -/
def reSearch (pt : Pat) (s : String) : Option String :=
  (reSearchFrom pt none s.data).map fun cap => ⟨cap⟩

/-- The class `[A-Za-z0-9._:-]`. -/
def idChars1 (c : Char) : Bool :=
  c.isAlpha || c.isDigit || c == '.' || c == '_' || c == ':' || c == '-'

/-- The class `[A-Za-z0-9._-]`. -/
def idChars2 (c : Char) : Bool :=
  c.isAlpha || c.isDigit || c == '.' || c == '_' || c == '-'

/-- The class `[0-9a-f]` under `IGNORECASE`. -/
def hexChar (c : Char) : Bool :=
  c.isDigit || (decide ('a' ≤ c.toLower) && decide (c.toLower ≤ 'f'))

/-- The class `[0-9a-f-]` under `IGNORECASE`. -/
def hexDash (c : Char) : Bool :=
  hexChar c || c == '-'

/-- The class `[_\s-]`. -/
def sepChar (c : Char) : Bool :=
  c == '_' || pyWs c || c == '-'

/-- The class `[:=]`. -/
def colonEq (c : Char) : Bool :=
  c == ':' || c == '='

/-- Literal run of pattern characters. -/
def lits (s : String) : List RItem :=
  s.data.map RItem.lit

/-- Double-quote character. -/
def dqChar : Char := '\x22'

/-- Single-quote character. -/
def sqChar : Char := '\x27'

namespace StatusAgent

/-- Pattern `"session_id"\s*:\s*"([A-Za-z0-9._:-]+)"`. -/
def pat1 : Pat :=
  ⟨[RItem.lit dqChar] ++ lits "session_id" ++ [RItem.lit dqChar, RItem.starC pyWs, RItem.lit ':', RItem.starC pyWs, RItem.lit dqChar],
   [RItem.plusC idChars1], [RItem.lit dqChar]⟩

/-- Pattern `'session_id'\s*:\s*'([A-Za-z0-9._:-]+)'`. -/
def pat2 : Pat :=
  ⟨[RItem.lit sqChar] ++ lits "session_id" ++ [RItem.lit sqChar, RItem.starC pyWs, RItem.lit ':', RItem.starC pyWs, RItem.lit sqChar],
   [RItem.plusC idChars1], [RItem.lit sqChar]⟩

/-- Pattern `/sessions/([A-Za-z0-9._:-]+)`. -/
def pat3 : Pat :=
  ⟨lits "/sessions/", [RItem.plusC idChars1], []⟩

/-- Pattern `\bcodex\s+resume\s+([A-Za-z0-9._:-]+)`. -/
def pat4 : Pat :=
  ⟨[RItem.wb] ++ lits "codex" ++ [RItem.plusC pyWs] ++ lits "resume" ++ [RItem.plusC pyWs],
   [RItem.plusC idChars1], []⟩

/-- Pattern `\bresume\s+([0-9a-f]{8}-[0-9a-f-]{27,})`. -/
def pat5 : Pat :=
  ⟨[RItem.wb] ++ lits "resume" ++ [RItem.plusC pyWs],
   [RItem.exactC 8 hexChar, RItem.lit '-', RItem.atLeastC 27 hexDash], []⟩

/-- Pattern `(?:session[_\s-]?id)\s*[:=]\s*([A-Za-z0-9._-]+)`. -/
def pat6 : Pat :=
  ⟨lits "session" ++ [RItem.optC sepChar] ++ lits "id" ++ [RItem.starC pyWs, RItem.cls colonEq, RItem.starC pyWs],
   [RItem.plusC idChars2], []⟩

/-- Pattern `(?:conversation[_\s-]?id)\s*[:=]\s*([A-Za-z0-9._-]+)`. -/
def pat7 : Pat :=
  ⟨lits "conversation" ++ [RItem.optC sepChar] ++ lits "id" ++ [RItem.starC pyWs, RItem.cls colonEq, RItem.starC pyWs],
   [RItem.plusC idChars2], []⟩

/-- Pattern `\bsession\s+([A-Za-z0-9._:-]{8,})`. -/
def pat8 : Pat :=
  ⟨[RItem.wb] ++ lits "session" ++ [RItem.plusC pyWs],
   [RItem.atLeastC 8 idChars1], []⟩

/-- The ordered pattern cascade of `StatusAgent.extract_session_id`. -/
def sessionPatterns : List Pat :=
  [pat1, pat2, pat3, pat4, pat5, pat6, pat7, pat8]

/-- The source's loop over the pattern list: the first matching pattern wins
and its capture is returned stripped; no match yields the empty string. -/
def extractLoop : List Pat → String → String
  | [], _ => ""
  | p :: rest, out =>
    match reSearch p out with
    | some cap => pyStrip cap
    | none => extractLoop rest out

/-- Embedding of `StatusAgent.extract_session_id` from `src/mint/agents.py`. -/
def extract_session_id (output : String) : String :=
  extractLoop sessionPatterns output

end StatusAgent

/-- Result record of one Execution Engine invocation (`ExecutionResult` in
`src/mint/agents.py`). -/
structure ExecutionResult where
  status : String
  thoughts : String
  session_id : String
  return_code : Int
deriving DecidableEq

/-- Python's `a or b` on strings: `a` when non-empty, else `b`. -/
def pyOr (a b : String) : String :=
  if a = "" then b else a

namespace ExecutionAgent

/-- Default wall-clock timeout of `ExecutionAgent` (`60 * 60` seconds in the
source constructor). -/
def default_timeout_seconds : Nat := 60 * 60

/-- Embedding of `ExecutionAgent._escape`: escape double quotes in the prompt. -/
def escape (prompt : String) : String :=
  pyReplace prompt "\"" "\\\""

/-- Embedding of `ExecutionAgent._truncate` with its default limit of 49000. -/
def truncate (text : String) : String :=
  if text.length ≤ 49000 then text
  else ⟨text.data.take (49000 - 15)⟩ ++ "\n...[truncated]"

/-- Embedding of `ExecutionAgent._is_noninteractive_agent_command`: the (lowercased)
command text contains an `exec` or `review` token. -/
def is_noninteractive_agent_command (text : String) : Bool :=
  let tokens := pyWordsS text
  if tokens.isEmpty then false
  else tokens.contains "exec" || tokens.contains "review"

/-- Embedding of `ExecutionAgent._command_prefers_tty`: a built command runs interactively
when it is a single bare token that is not a recognized non-interactive
subcommand invocation. -/
def command_prefers_tty (built_command : String) : Bool :=
  let text := pyLowerS (pyStrip built_command)
  if is_noninteractive_agent_command text then false
  else (pyWordsS text).length == 1

/-- The stdio-incompatibility phrases scanned by
`ExecutionAgent._requires_tty_fallback`. -/
def tty_phrases : List String :=
  ["stdin is not a terminal", "stdin is not a tty",
   "stdout is not a terminal", "stdout is not a tty",
   "not a terminal", "not a tty"]

/-- Embedding of `ExecutionAgent._requires_tty_fallback`: a captured run is retried on a
terminal exactly when it failed and its lowercased output contains one of the
stdio-incompatibility phrases. -/
def requires_tty_fallback (return_code : Int) (output : String) : Bool :=
  if return_code = 0 then false
  else tty_phrases.any fun p => pyContains (pyLowerS output) p

/-- Embedding of `ExecutionAgent._pick_session_id`. -/
def pick_session_id (previous latest fallback : String) : String :=
  if latest ≠ "" ∧ latest ≠ previous then latest
  else if fallback ≠ "" then fallback
  else latest

/-- Embedding of `ExecutionAgent._build_command`: substitute an explicit prompt
placeholder (and then a session placeholder) when the template has one,
otherwise append the auto-close `exec` subcommand and/or a `resume`
directive followed by the quoted escaped prompt. -/
def build_command (auto_close_after_task : Bool) (command prompt session_id : String) : String :=
  let escaped_prompt := escape prompt
  if pyContains command "{prompt}" then
    let built := pyReplace command "{prompt}" escaped_prompt
    if pyContains built "{session_id}" then pyReplace built "{session_id}" session_id
    else if session_id ≠ "" then built ++ " resume " ++ session_id
    else built
  else if auto_close_after_task
      && !(is_noninteractive_agent_command (pyLowerS (pyStrip command))) then
    if session_id ≠ "" then
      command ++ " exec resume " ++ session_id ++ " \"" ++ escaped_prompt ++ "\""
    else
      command ++ " exec \"" ++ escaped_prompt ++ "\""
  else if session_id ≠ "" then
    command ++ " resume " ++ session_id ++ " \"" ++ escaped_prompt ++ "\""
  else
    command ++ " \"" ++ escaped_prompt ++ "\""

/-- Outcome of the captured streaming run `_run_streaming`: either the
wall-clock timeout fires, or the process finishes with a return code and the
buffered (already joined and normalised) output text. -/
inductive StreamOutcome where
  | timeout
  | finished (return_code : Int) (output : String)
deriving DecidableEq

/-- Outcome of the interactive `subprocess.run` inside `_run_with_tty`. -/
inductive TtyOutcome where
  | timeout
  | finished (return_code : Int)
deriving DecidableEq

/-- Oracle for everything outside the process boundary of one
`ExecutionAgent.run` call: the two possible process runs and the session log
store snapshots (`_latest_codex_session_id` before the run, after the
streaming run, and after the TTY run) plus the per-session assistant message
lookup (`_latest_codex_assistant_message`, empty string = no message). -/
structure ExecEnv where
  streamOutcome : StreamOutcome
  ttyOutcome : TtyOutcome
  preSessionId : String
  postStreamSessionId : String
  postTtySessionId : String
  assistantMessage : String → String

/-- Instrumentation of one `run` call: how many captured (streaming) process
runs and how many interactive (TTY) process runs it performed. -/
structure RunTrace where
  streamRuns : Nat
  ttyRuns : Nat
deriving DecidableEq

/-- Embedding of `ExecutionAgent._run_with_tty`: run interactively, classify from the
synthesized terminal-mode output, resolve the session id from the session log
snapshots, and prefer the session log's assistant message as thoughts. -/
def run_with_tty (env : ExecEnv) (session_id pre_session_id : String) : ExecutionResult :=
  match env.ttyOutcome with
  | TtyOutcome.timeout =>
    ⟨"Blocked", "Command timed out in TTY mode. Marked as Blocked.", session_id, 124⟩
  | TtyOutcome.finished rc =>
    let post_session_id := env.postTtySessionId
    let detected_session_id := pick_session_id pre_session_id post_session_id session_id
    let base :=
      if rc = 0 then "Command completed in terminal mode."
      else "Command exited with code " ++ toString rc ++ " in terminal mode."
    let output :=
      if detected_session_id ≠ "" then base ++ "\nSession ID: " ++ detected_session_id
      else base
    let status := StatusAgent.decide rc output
    let codex_message :=
      if detected_session_id ≠ "" then env.assistantMessage detected_session_id else ""
    let thoughts := if codex_message ≠ "" then codex_message else output
    ⟨status, truncate thoughts, detected_session_id, rc⟩

/-- Embedding of `ExecutionAgent.run`: build the command, pick interactive or captured
mode, stream with timeout recovery and a single TTY fallback, then resolve
session id and thoughts. The second component counts the process runs
performed. -/
def run (env : ExecEnv) (auto_close_after_task : Bool)
    (command prompt session_id : String) : ExecutionResult × RunTrace :=
  let built := build_command auto_close_after_task command prompt session_id
  let pre_session_id := env.preSessionId
  if command_prefers_tty built then
    (run_with_tty env session_id pre_session_id, ⟨0, 1⟩)
  else
    match env.streamOutcome with
    | StreamOutcome.timeout =>
      (⟨"Blocked", truncate "Command timed out. Marked as Blocked.", pyOr "" session_id, 124⟩,
       ⟨1, 0⟩)
    | StreamOutcome.finished rc output =>
      if requires_tty_fallback rc output then
        (run_with_tty env session_id pre_session_id, ⟨1, 1⟩)
      else
        let status := StatusAgent.decide rc output
        let extracted0 := StatusAgent.extract_session_id output
        let post_session_id := env.postStreamSessionId
        let extracted :=
          if extracted0 = "" ∧ post_session_id ≠ "" ∧ post_session_id ≠ pre_session_id
          then post_session_id else extracted0
        let session_for_message0 := pyOr extracted session_id
        let session_for_message :=
          if session_for_message0 = "" ∧ post_session_id ≠ "" ∧ post_session_id ≠ pre_session_id
          then post_session_id else session_for_message0
        let codex_message :=
          if session_for_message ≠ "" then env.assistantMessage session_for_message else ""
        let thoughts := if codex_message ≠ "" then codex_message else output
        (⟨status, truncate thoughts, pyOr extracted session_id, rc⟩, ⟨1, 0⟩)

end ExecutionAgent

/-- One task row as `GoogleSheetClient.read_row` returns it
(`RowState` in `src/mint/google_sheet.py`). -/
structure RowState where
  prompt : String
  ticket : String
  status : String
  user_input : String
  thoughts : String
  session_id : String
deriving DecidableEq

/-- Aggregate result of one driver pass (`RunSummary` in
`src/mint/pipeline.py`). -/
structure RunSummary where
  executed_rows : Nat
  archived_rows : Nat
  stopped_at_row : Nat
deriving DecidableEq

/-- Embedding of `_join_prefix` from `src/mint/pipeline.py`: strip both parts and join
them with one space, dropping an empty side. -/
def joinPrefix (pfx prompt : String) : String :=
  let p1 := pyStrip pfx
  let p2 := pyStrip prompt
  if p1 = "" then p2
  else if p2 = "" then p1
  else p1 ++ " " ++ p2

namespace MintPipeline

/-- The mutable state of the driver loop in `MintPipeline.run`: the row
position under examination and the two counters. -/
structure LoopState where
  row_number : Nat
  executed_rows : Nat
  archived_rows : Nat
deriving DecidableEq

/-- Observable side effects of one loop iteration, in order: targeted column
writes, the archive-and-shift call, and Execution Engine invocations. -/
inductive DriverEvent where
  | archiveAndShift (row : Nat)
  | updateColumns (row : Nat) (updates : List (String × String))
  | engineRun (command prompt session_id : String)
deriving DecidableEq

/-- The Execution Engine as the driver sees it:
`(command, prompt, session_id) -> ExecutionResult`. -/
def EngineFn : Type :=
  String → String → String → ExecutionResult

/-- Result of one iteration of the driver loop: the ordered side effects, the
next loop state, and `some summary` when the loop returned. -/
structure IterResult where
  events : List DriverEvent
  next : LoopState
  finished : Option RunSummary
deriving DecidableEq

/-- The column writes persisted after an execution: status to D, thoughts to
F, and the session id to G only when non-empty. -/
def resultUpdates (result : ExecutionResult) : List (String × String) :=
  [("D", result.status), ("F", result.thoughts)] ++
    (if result.session_id ≠ "" then [("G", result.session_id)] else [])

/-- One iteration of the `while True` loop of `MintPipeline.run`, for the row
the queue store returned at the current position: stop on an empty prompt,
archive `Approved` rows without advancing, execute rows with an empty ticket
(persisting a provisional summary and Ongoing status first), resume `Ongoing`
rows with their session id, and skip anything else. -/
def runIteration (pfx command : String) (engine : EngineFn) (row : RowState)
    (st : LoopState) : IterResult :=
  if row.prompt = "" then
    ⟨[], st, some ⟨st.executed_rows, st.archived_rows, st.row_number⟩⟩
  else
    let status := pyStrip row.status
    if status = "Approved" then
      ⟨[DriverEvent.archiveAndShift st.row_number],
       ⟨st.row_number, st.executed_rows, st.archived_rows + 1⟩, none⟩
    else if row.ticket = "" then
      let summary := SummaryAgent.summarize row.prompt
      let pr := joinPrefix pfx row.prompt
      let result := engine command pr ""
      ⟨[DriverEvent.updateColumns st.row_number [("C", summary), ("D", "Ongoing")],
        DriverEvent.engineRun command pr "",
        DriverEvent.updateColumns st.row_number (resultUpdates result)],
       ⟨st.row_number + 1, st.executed_rows + 1, st.archived_rows⟩, none⟩
    else if status = "Ongoing" then
      let resume_prompt := if pyStrip row.user_input ≠ "" then pyStrip row.user_input else row.prompt
      let pr := joinPrefix pfx resume_prompt
      let result := engine command pr row.session_id
      ⟨[DriverEvent.engineRun command pr row.session_id,
        DriverEvent.updateColumns st.row_number (resultUpdates result)],
       ⟨st.row_number + 1, st.executed_rows + 1, st.archived_rows⟩, none⟩
    else
      ⟨[], ⟨st.row_number + 1, st.executed_rows, st.archived_rows⟩, none⟩

end MintPipeline

/-- An Execution Engine stub that always reports a completed run with no
session id, used to instantiate driver theorems at concrete inputs. -/
def engC : MintPipeline.EngineFn :=
  fun _ _ _ => ⟨"Completed", "", "", 0⟩

namespace ExecutionAgent

/-- Invocation construction exactly as claim C6 words it: in the placeholder
case a resume directive is put ahead of the prompt, and in the no-placeholder
case auto-close mode always appends the non-interactive subcommand, preceded
by the optional resume directive, before the quoted prompt. Stated only to be
compared against `build_command`. -/
def build_command_claimed (auto_close_after_task : Bool)
    (command prompt session_id : String) : String :=
  let escaped_prompt := escape prompt
  if pyContains command "{prompt}" then
    if pyContains command "{session_id}" then
      pyReplace (pyReplace command "{prompt}" escaped_prompt) "{session_id}" session_id
    else if session_id ≠ "" then
      pyReplace command "{prompt}" ("resume " ++ session_id ++ " " ++ escaped_prompt)
    else
      pyReplace command "{prompt}" escaped_prompt
  else if auto_close_after_task then
    command ++ (if session_id ≠ "" then " resume " ++ session_id else "")
      ++ " exec \"" ++ escaped_prompt ++ "\""
  else
    command ++ (if session_id ≠ "" then " resume " ++ session_id else "")
      ++ " \"" ++ escaped_prompt ++ "\""

/-- Invocation construction as the amended claim words it: prompt placeholder
substituted with the escaped prompt; a session placeholder present after that
substitution is substituted, otherwise a supplied session id is appended as a
trailing resume directive; without placeholders, auto-close mode (when the
template is not already a non-interactive invocation) appends the
non-interactive subcommand followed by the optional resume directive and the
quoted prompt, and otherwise only the optional resume directive and the
quoted prompt are appended. -/
def build_command_described (auto_close_after_task : Bool)
    (command prompt session_id : String) : String :=
  let escaped_prompt := escape prompt
  let quoted := "\"" ++ escaped_prompt ++ "\""
  if pyContains command "{prompt}" then
    let built := pyReplace command "{prompt}" escaped_prompt
    if pyContains built "{session_id}" then pyReplace built "{session_id}" session_id
    else if session_id ≠ "" then built ++ " resume " ++ session_id
    else built
  else if auto_close_after_task
      && !(is_noninteractive_agent_command (pyLowerS (pyStrip command))) then
    command ++ " exec" ++ (if session_id ≠ "" then " resume " ++ session_id else "")
      ++ " " ++ quoted
  else
    command ++ (if session_id ≠ "" then " resume " ++ session_id else "")
      ++ " " ++ quoted

end ExecutionAgent

/-- Well-formed word lists: what `pyWords` produces and `joinSp` consumes in
the summarizer roundtrip lemmas — every word non-empty and whitespace-free. -/
def goodWords (ws : List (List Char)) : Prop :=
  ∀ w ∈ ws, w ≠ [] ∧ ∀ c ∈ w, pyWs c = false

theorem words_wsfree : ∀ (l : List Char), ∀ w ∈ words l, ∀ c ∈ w, pyWs c = false := by
  intro l
  induction l with
  | nil => intro w hw; simp [words] at hw
  | cons c cs ih =>
    intro w hw d hd
    by_cases hc : pyWs c
    · simp only [words, if_pos hc] at hw
      rcases List.mem_cons.mp hw with h | h
      · subst h; simp at hd
      · exact ih w h d hd
    · simp only [words, if_neg hc] at hw
      rcases hws : words cs with _ | ⟨w1, ws1⟩
      · rw [hws] at hw
        simp only [List.mem_singleton] at hw
        subst hw
        simp only [List.mem_singleton] at hd
        subst hd
        simpa using hc
      · rw [hws] at hw
        simp only [List.mem_cons] at hw
        rcases hw with h | h
        · subst h
          rcases List.mem_cons.mp hd with h2 | h2
          · subst h2; simpa using hc
          · exact ih w1 (by rw [hws]; exact List.mem_cons_self w1 ws1) d h2
        · exact ih w (by rw [hws]; exact List.mem_cons_of_mem w1 h) d hd

theorem pyWords_good (l : List Char) : goodWords (pyWords l) := by
  intro w hw
  unfold pyWords at hw
  rw [List.mem_filter] at hw
  refine ⟨?_, fun c hc => words_wsfree l w hw.1 c hc⟩
  intro hnil
  subst hnil
  simp at hw

theorem words_of_word : ∀ (w : List Char), w ≠ [] → (∀ c ∈ w, pyWs c = false) →
    words w = [w] := by
  intro w
  induction w with
  | nil => intro h; exact absurd rfl h
  | cons c w2 ih =>
    intro _ hfree
    have hc : pyWs c = false := hfree c (List.mem_cons_self c w2)
    rcases Decidable.em (w2 = []) with h2 | h2
    · subst h2; simp [words, hc]
    · have hrec := ih h2 (fun d hd => hfree d (List.mem_cons_of_mem c hd))
      simp [words, hc, hrec]

theorem words_word_space : ∀ (w l : List Char), w ≠ [] → (∀ c ∈ w, pyWs c = false) →
    words (w ++ '\x20' :: l) = w :: words l := by
  intro w
  induction w with
  | nil => intro l h; exact absurd rfl h
  | cons c w2 ih =>
    intro l _ hfree
    have hc : pyWs c = false := hfree c (List.mem_cons_self c w2)
    rcases Decidable.em (w2 = []) with h2 | h2
    · subst h2
      have hsp : pyWs '\x20' = true := by decide
      simp [words, hc, hsp]
    · have hrec := ih l h2 (fun d hd => hfree d (List.mem_cons_of_mem c hd))
      simp [words, hc, hrec]

theorem pyWords_joinSp : ∀ (ws : List (List Char)), goodWords ws →
    pyWords (joinSp ws) = ws := by
  intro ws
  induction ws with
  | nil => intro _; rfl
  | cons w ws2 ih =>
    intro hgood
    have hw := hgood w (List.mem_cons_self w ws2)
    rcases Decidable.em (ws2 = []) with h2 | h2
    · subst h2
      show pyWords (joinSp [w]) = [w]
      have : joinSp [w] = w := rfl
      rw [this]
      unfold pyWords
      rw [words_of_word w hw.1 hw.2]
      simp [hw.1]
    · have hjoin : joinSp (w :: ws2) = w ++ '\x20' :: joinSp ws2 := by
        cases ws2 with
        | nil => exact absurd rfl h2
        | cons a t => rfl
      rw [hjoin]
      unfold pyWords
      rw [words_word_space w (joinSp ws2) hw.1 hw.2]
      have ihr := ih (fun v hv => hgood v (List.mem_cons_of_mem w hv))
      unfold pyWords at ihr
      simp [hw.1, ihr]

theorem collapseL_idem (l : List Char) : collapseL (collapseL l) = collapseL l := by
  unfold collapseL
  rw [pyWords_joinSp (pyWords l) (pyWords_good l)]

theorem pyRstripL_length_le : ∀ (l : List Char), (pyRstripL l).length ≤ l.length := by
  intro l
  induction l with
  | nil => simp [pyRstripL]
  | cons c cs ih =>
    simp only [pyRstripL]
    rcases h : pyRstripL cs with _ | ⟨r, rs⟩
    · by_cases hc : pyWs c <;> simp [hc]
    · rw [h] at ih
      simpa using Nat.succ_le_succ ih

theorem pyRstripL_wsfree_id : ∀ (l : List Char), (∀ c ∈ l, pyWs c = false) →
    pyRstripL l = l := by
  intro l
  induction l with
  | nil => intro _; rfl
  | cons c cs ih =>
    intro hfree
    have hc : pyWs c = false := hfree c (List.mem_cons_self c cs)
    have hrec : pyRstripL cs = cs := ih fun d hd => hfree d (List.mem_cons_of_mem c hd)
    simp only [pyRstripL, hrec]
    cases cs with
    | nil => simp [hc]
    | cons a t => rfl

theorem pyRstripL_append (a b : List Char) :
    pyRstripL (a ++ b) = if pyRstripL b = [] then pyRstripL a else a ++ pyRstripL b := by
  induction a with
  | nil =>
    by_cases hb : pyRstripL b = []
    · rw [List.nil_append, if_pos hb, hb]; rfl
    · rw [List.nil_append, if_neg hb, List.nil_append]
  | cons c a2 ih =>
    rw [List.cons_append]
    simp only [pyRstripL]
    rw [ih]
    by_cases hb : pyRstripL b = []
    · rw [if_pos hb, if_pos hb]
    · rw [if_neg hb, if_neg hb]
      rcases hb2 : pyRstripL b with _ | ⟨r, rs⟩
      · exact absurd hb2 hb
      · cases a2 <;> rfl

theorem joinSp_cons (w : List Char) (ws : List (List Char)) (h : ws ≠ []) :
    joinSp (w :: ws) = w ++ '\x20' :: joinSp ws := by
  cases ws with
  | nil => exact absurd rfl h
  | cons a t => rfl

theorem joinSp_ne_nil (ws : List (List Char)) (hgood : goodWords ws) (h : ws ≠ []) :
    joinSp ws ≠ [] := by
  cases ws with
  | nil => exact absurd rfl h
  | cons w t =>
    have hw := (hgood w (List.mem_cons_self w t)).1
    cases t with
    | nil => exact hw
    | cons a t2 => simp [joinSp, hw]

theorem rstrip_take_joinSp : ∀ (ws : List (List Char)), goodWords ws → ∀ (n : Nat),
    ∃ ws2, goodWords ws2 ∧ pyRstripL ((joinSp ws).take n) = joinSp ws2 := by
  intro ws
  induction ws with
  | nil =>
    intro _ n
    exact ⟨[], fun w hw => absurd hw (by simp), by simp [joinSp, pyRstripL]⟩
  | cons w ws2 ih =>
    intro hgood n
    have hw := hgood w (List.mem_cons_self w ws2)
    have htfree : ∀ c ∈ w.take n, pyWs c = false := fun c hc => hw.2 c (List.mem_of_mem_take hc)
    rcases Decidable.em (ws2 = []) with h2 | h2
    · subst h2
      have hjw : joinSp [w] = w := rfl
      rw [hjw, pyRstripL_wsfree_id _ htfree]
      rcases Decidable.em (w.take n = []) with hnil | hnil
      · exact ⟨[], fun v hv => absurd hv (by simp), by rw [hnil]; rfl⟩
      · exact ⟨[w.take n], fun v hv => by
          rw [List.mem_singleton] at hv
          exact hv ▸ ⟨hnil, htfree⟩, rfl⟩
    · rw [joinSp_cons w ws2 h2]
      rcases Decidable.em (n ≤ w.length) with hn | hn
      · have htk : (w ++ '\x20' :: joinSp ws2).take n = w.take n := by
          rw [List.take_append_eq_append_take]
          have : n - w.length = 0 := Nat.sub_eq_zero_of_le hn
          simp [this]
        rw [htk, pyRstripL_wsfree_id _ htfree]
        rcases Decidable.em (w.take n = []) with hnil | hnil
        · exact ⟨[], fun v hv => absurd hv (by simp), by rw [hnil]; rfl⟩
        · exact ⟨[w.take n], fun v hv => by
            rw [List.mem_singleton] at hv
            exact hv ▸ ⟨hnil, htfree⟩, rfl⟩
      · have hlt : w.length < n := Nat.lt_of_not_le hn
        have hpos : 0 < n - w.length := Nat.sub_pos_of_lt hlt
        have htk : (w ++ '\x20' :: joinSp ws2).take n =
            w ++ '\x20' :: (joinSp ws2).take (n - w.length - 1) := by
          rw [List.take_append_eq_append_take,
            List.take_of_length_le (Nat.le_of_lt hlt),
            List.take_cons hpos]
        rw [htk]
        have hgood2 : goodWords ws2 := fun v hv => hgood v (List.mem_cons_of_mem w hv)
        rcases ih hgood2 (n - w.length - 1) with ⟨ws3, hgood3, hws3⟩
        rw [show w ++ '\x20' :: (joinSp ws2).take (n - w.length - 1) =
            w ++ ('\x20' :: (joinSp ws2).take (n - w.length - 1)) from rfl,
          pyRstripL_append]
        have hsp : pyRstripL ('\x20' :: (joinSp ws2).take (n - w.length - 1)) =
            match pyRstripL ((joinSp ws2).take (n - w.length - 1)) with
            | [] => []
            | r => '\x20' :: r := by
          simp only [pyRstripL]
          rcases pyRstripL ((joinSp ws2).take (n - w.length - 1)) with _ | ⟨r, rs⟩
          · simp [pyWs]
          · rfl
        rcases Decidable.em (ws3 = []) with h3 | h3
        · subst h3
          have hjs3 : pyRstripL ((joinSp ws2).take (n - w.length - 1)) = [] := by
            rw [hws3]; rfl
          rw [hsp, hjs3]
          simp only [if_pos rfl]
          rw [pyRstripL_wsfree_id w hw.2]
          exact ⟨[w], fun v hv => by
            rw [List.mem_singleton] at hv
            exact hv ▸ hw, rfl⟩
        · have hne : pyRstripL ((joinSp ws2).take (n - w.length - 1)) ≠ [] := by
            rw [hws3]
            exact joinSp_ne_nil ws3 hgood3 h3
          rw [hsp]
          rcases hr : pyRstripL ((joinSp ws2).take (n - w.length - 1)) with _ | ⟨r, rs⟩
          · exact absurd hr hne
          · rw [if_neg (List.cons_ne_nil _ _)]
            refine ⟨w :: ws3, ?_, ?_⟩
            · intro v hv
              rcases List.mem_cons.mp hv with h | h
              · exact h ▸ hw
              · exact hgood3 v h
            · rw [joinSp_cons w ws3 h3, ← hws3, hr]

theorem joinSp_append_dots : ∀ (ws : List (List Char)), goodWords ws →
    ∃ ws2, goodWords ws2 ∧ joinSp ws ++ dots = joinSp ws2 := by
  intro ws
  induction ws with
  | nil =>
    intro _
    refine ⟨[dots], ?_, rfl⟩
    intro v hv
    rw [List.mem_singleton] at hv
    subst hv
    exact ⟨by simp [dots], by decide⟩
  | cons w ws2 ih =>
    intro hgood
    have hw := hgood w (List.mem_cons_self w ws2)
    rcases Decidable.em (ws2 = []) with h2 | h2
    · subst h2
      refine ⟨[w ++ dots], ?_, rfl⟩
      intro v hv
      rw [List.mem_singleton] at hv
      subst hv
      refine ⟨by simp [dots], ?_⟩
      intro c hc
      rcases List.mem_append.mp hc with h | h
      · exact hw.2 c h
      · have : c = '.' := by
          simpa [dots] using h
        subst this
        decide
    · rcases ih (fun v hv => hgood v (List.mem_cons_of_mem w hv)) with ⟨ws3, hgood3, hws3⟩
      have h3 : ws3 ≠ [] := by
        intro hnil
        subst hnil
        have : joinSp ws2 ++ dots = [] := hws3
        simp [dots] at this
      refine ⟨w :: ws3, ?_, ?_⟩
      · intro v hv
        rcases List.mem_cons.mp hv with h | h
        · exact h ▸ hw
        · exact hgood3 v h
      · rw [joinSp_cons w ws2 h2, joinSp_cons w ws3 h3, ← hws3]
        simp

theorem pyWords_all_ws : ∀ (l : List Char), (∀ c ∈ l, pyWs c = true) →
    pyWords l = [] := by
  intro l
  induction l with
  | nil => intro _; rfl
  | cons c cs ih =>
    intro hws
    have hc : pyWs c = true := hws c (List.mem_cons_self c cs)
    have hrec := ih fun d hd => hws d (List.mem_cons_of_mem c hd)
    unfold pyWords at hrec ⊢
    simp [words, hc, hrec]

theorem summarizeL_eq_nil (p : List Char) (h : collapseL p = []) :
    SummaryAgent.summarizeL p = [] := by
  simp [SummaryAgent.summarizeL, h]

theorem summarizeL_eq_clean (p : List Char) (h0 : collapseL p ≠ [])
    (h1 : (collapseL p).length ≤ 96) :
    SummaryAgent.summarizeL p = collapseL p := by
  simp [SummaryAgent.summarizeL, List.isEmpty_iff, h0, h1]

theorem summarizeL_eq_trunc (p : List Char) (h1 : ¬ (collapseL p).length ≤ 96) :
    SummaryAgent.summarizeL p = pyRstripL ((collapseL p).take 93) ++ dots := by
  have h0 : collapseL p ≠ [] := by
    intro h
    rw [h] at h1
    simp at h1
  simp [SummaryAgent.summarizeL, List.isEmpty_iff, h0, h1]

theorem summarizeL_length_le (p : List Char) :
    (SummaryAgent.summarizeL p).length ≤ 96 := by
  by_cases h0 : collapseL p = []
  · rw [summarizeL_eq_nil p h0]
    simp
  · by_cases h1 : (collapseL p).length ≤ 96
    · rw [summarizeL_eq_clean p h0 h1]
      exact h1
    · rw [summarizeL_eq_trunc p h1]
      have ht : (pyRstripL ((collapseL p).take 93)).length ≤ 93 :=
        Nat.le_trans (pyRstripL_length_le _) (List.length_take_le 93 _)
      have hd : dots.length = 3 := by decide
      rw [List.length_append, hd]
      omega

theorem summarizeL_ne_nil (p : List Char) (h : collapseL p ≠ []) :
    SummaryAgent.summarizeL p ≠ [] := by
  by_cases h1 : (collapseL p).length ≤ 96
  · rw [summarizeL_eq_clean p h h1]
    exact h
  · rw [summarizeL_eq_trunc p h1]
    simp [dots]

theorem summarizeL_idem (l : List Char) :
    SummaryAgent.summarizeL (SummaryAgent.summarizeL l) = SummaryAgent.summarizeL l := by
  by_cases h0 : collapseL l = []
  · rw [summarizeL_eq_nil l h0, summarizeL_eq_nil [] (by rfl)]
  · by_cases h1 : (collapseL l).length ≤ 96
    · rw [summarizeL_eq_clean l h0 h1]
      have hcoll : collapseL (collapseL l) = collapseL l := collapseL_idem l
      rw [summarizeL_eq_clean (collapseL l) (by rw [hcoll]; exact h0) (by rw [hcoll]; exact h1)]
      exact hcoll
    · have hs : SummaryAgent.summarizeL l = pyRstripL ((collapseL l).take 93) ++ dots :=
        summarizeL_eq_trunc l h1
      rcases rstrip_take_joinSp (pyWords l) (pyWords_good l) 93 with ⟨ws2, hgood2, hws2⟩
      rcases joinSp_append_dots ws2 hgood2 with ⟨ws3, hgood3, hws3⟩
      have ht : SummaryAgent.summarizeL l = joinSp ws3 := by
        rw [hs]
        have : pyRstripL ((collapseL l).take 93) = joinSp ws2 := hws2
        rw [this, hws3]
      have hcoll : collapseL (SummaryAgent.summarizeL l) = SummaryAgent.summarizeL l := by
        rw [ht]
        unfold collapseL
        rw [pyWords_joinSp ws3 hgood3]
      have hlen : (SummaryAgent.summarizeL l).length ≤ 96 := summarizeL_length_le l
      have hne2 : SummaryAgent.summarizeL l ≠ [] := summarizeL_ne_nil l h0
      rw [summarizeL_eq_clean (SummaryAgent.summarizeL l)
        (by rw [hcoll]; exact hne2) (by rw [hcoll]; exact hlen)]
      exact hcoll

/-- Claim C9: `summarize` always returns at most 96 characters; empty and
whitespace-only prompts yield the empty string; prompts whose
whitespace-collapsed, end-trimmed form fits in 96 characters are returned
exactly in that collapsed form; longer prompts are truncated to the first 93
collapsed characters, trailing whitespace trimmed, followed by the ellipsis
marker `"..."`. -/
theorem claim9_summarize_shape (p : String) :
    (SummaryAgent.summarize p).length ≤ 96 ∧
    SummaryAgent.summarize "" = "" ∧
    ((∀ c ∈ p.data, pyWs c = true) → SummaryAgent.summarize p = "") ∧
    ((collapseL p.data).length ≤ 96 → SummaryAgent.summarize p = ⟨collapseL p.data⟩) ∧
    (96 < (collapseL p.data).length →
      SummaryAgent.summarize p = ⟨pyRstripL ((collapseL p.data).take 93) ++ dots⟩) := by
  refine ⟨?_, rfl, ?_, ?_, ?_⟩
  · show (SummaryAgent.summarizeL p.data).length ≤ 96
    exact summarizeL_length_le p.data
  · intro h
    show (⟨SummaryAgent.summarizeL p.data⟩ : String) = ""
    have hnil : collapseL p.data = [] := by
      unfold collapseL
      rw [pyWords_all_ws p.data h]
      rfl
    rw [summarizeL_eq_nil p.data hnil]
  · intro h
    show (⟨SummaryAgent.summarizeL p.data⟩ : String) = ⟨collapseL p.data⟩
    by_cases h0 : collapseL p.data = []
    · rw [summarizeL_eq_nil p.data h0, h0]
    · rw [summarizeL_eq_clean p.data h0 h]
  · intro h
    show (⟨SummaryAgent.summarizeL p.data⟩ : String) =
      ⟨pyRstripL ((collapseL p.data).take 93) ++ dots⟩
    rw [summarizeL_eq_trunc p.data (by omega)]

/-- Witness for claim C9 at a whitespace-only prompt. -/
theorem claim9_summarize_shape_witness : SummaryAgent.summarize " \t " = "" :=
  (claim9_summarize_shape " \t ").2.2.1 (by decide)

/-- Claim C10: `summarize` is idempotent — summarizing an already-produced
ticket returns it unchanged. -/
theorem claim10_summarize_idempotent (p : String) :
    SummaryAgent.summarize (SummaryAgent.summarize p) = SummaryAgent.summarize p := by
  show (⟨SummaryAgent.summarizeL (SummaryAgent.summarize p).data⟩ : String) =
    ⟨SummaryAgent.summarizeL p.data⟩
  have hdata : (SummaryAgent.summarize p).data = SummaryAgent.summarizeL p.data := rfl
  rw [hdata, summarizeL_idem]

/-- Claim C1: `decide` returns Blocked for every non-zero return code
regardless of output, and for return code 0 scans the lowercased output for
the three markers in the fixed priority order testing, blocked, completed,
defaulting to Completed when none occurs. -/
theorem claim1_decide_classification (rc : Int) (out : String) :
    (rc ≠ 0 → StatusAgent.decide rc out = "Blocked") ∧
    (rc = 0 → StatusAgent.decide rc out =
      (if pyContains (pyLowerS out) "status: testing" then "Testing"
       else if pyContains (pyLowerS out) "status: blocked" then "Blocked"
       else if pyContains (pyLowerS out) "status: completed" then "Completed"
       else "Completed")) := by
  constructor
  · intro h
    simp [StatusAgent.decide, h]
  · intro h
    subst h
    simp [StatusAgent.decide]

/-- Witness for claim C1: a non-zero return code beats a completed marker,
and a blocked marker is found at return code 0. -/
theorem claim1_decide_classification_witness :
    StatusAgent.decide 1 "status: completed" = "Blocked" ∧
    StatusAgent.decide 0 "a status: blocked b" = "Blocked" := by
  constructor
  · exact (claim1_decide_classification 1 "status: completed").1 (by decide)
  · have h := (claim1_decide_classification 0 "a status: blocked b").2 rfl
    rw [h]
    decide

theorem extractLoop_eq_findSome (ps : List Pat) (out : String) :
    StatusAgent.extractLoop ps out =
      match List.findSome? (fun p => reSearch p out) ps with
      | some cap => pyStrip cap
      | none => "" := by
  induction ps with
  | nil => rfl
  | cons p rest ih =>
    show (match reSearch p out with
      | some cap => pyStrip cap
      | none => StatusAgent.extractLoop rest out) = _
    rw [List.findSome?_cons]
    cases reSearch p out with
    | some cap => rfl
    | none => exact ih

/-- Claim C8: `extract_session_id` evaluates the ordered pattern cascade
`sessionPatterns` first-match-wins (each pattern searched case-insensitively
by `reSearch`), returns the first successful match's capture trimmed, and
returns the empty string when no pattern matches. -/
theorem claim8_extract_first_match (out : String) :
    StatusAgent.extract_session_id out =
      match List.findSome? (fun p => reSearch p out) StatusAgent.sessionPatterns with
      | some cap => pyStrip cap
      | none => "" :=
  extractLoop_eq_findSome StatusAgent.sessionPatterns out

/-- Claim C2: on a row with a non-empty prompt and (stripped) status
Approved, one iteration of the driver performs exactly one archive-and-shift
call at the current row position, increments the archived counter by one,
leaves the executed counter and the row position unchanged (so the same
position is re-examined next), never invokes the Execution Engine, and does
not stop the loop. -/
theorem claim2_approved_archive (pfx command : String) (engine : MintPipeline.EngineFn)
    (row : RowState) (st : MintPipeline.LoopState)
    (h1 : row.prompt ≠ "") (h2 : pyStrip row.status = "Approved") :
    (MintPipeline.runIteration pfx command engine row st).events =
        [MintPipeline.DriverEvent.archiveAndShift st.row_number] ∧
      (MintPipeline.runIteration pfx command engine row st).next =
        ⟨st.row_number, st.executed_rows, st.archived_rows + 1⟩ ∧
      (∀ c p s, MintPipeline.DriverEvent.engineRun c p s ∉
        (MintPipeline.runIteration pfx command engine row st).events) ∧
      (MintPipeline.runIteration pfx command engine row st).finished = none := by
  have hrun : MintPipeline.runIteration pfx command engine row st =
      ⟨[MintPipeline.DriverEvent.archiveAndShift st.row_number],
       ⟨st.row_number, st.executed_rows, st.archived_rows + 1⟩, none⟩ := by
    unfold MintPipeline.runIteration
    rw [if_neg h1, h2, if_pos rfl]
  rw [hrun]
  refine ⟨rfl, rfl, ?_, rfl⟩
  intro c p s hmem
  simp at hmem

/-- Witness for claim C2 at the concrete Approved row of the spec scenario. -/
theorem claim2_approved_archive_witness :
    (MintPipeline.runIteration "" "c" engC ⟨"p", "T1", "Approved", "", "", ""⟩ ⟨2, 0, 0⟩).events =
        [MintPipeline.DriverEvent.archiveAndShift 2] ∧
      (MintPipeline.runIteration "" "c" engC ⟨"p", "T1", "Approved", "", "", ""⟩ ⟨2, 0, 0⟩).next =
        ⟨2, 0, 1⟩ := by
  have h := claim2_approved_archive "" "c" engC ⟨"p", "T1", "Approved", "", "", ""⟩ ⟨2, 0, 0⟩
    (by decide) (by decide)
  exact ⟨h.1, h.2.1⟩

/-- Claim C4: a capture-mode execution whose streaming run hits the
wall-clock timeout (default 3600 seconds) returns normally with status
Blocked, return code 124, the fixed timeout message as thoughts, and the
input session id unchanged. -/
theorem claim4_timeout_blocked (env : ExecutionAgent.ExecEnv) (ac : Bool)
    (command prompt session_id : String)
    (h1 : ExecutionAgent.command_prefers_tty
        (ExecutionAgent.build_command ac command prompt session_id) = false)
    (h2 : env.streamOutcome = ExecutionAgent.StreamOutcome.timeout) :
    (ExecutionAgent.run env ac command prompt session_id).1 =
        ⟨"Blocked", "Command timed out. Marked as Blocked.", session_id, 124⟩ ∧
      ExecutionAgent.default_timeout_seconds = 3600 := by
  refine ⟨?_, rfl⟩
  have ht : ExecutionAgent.truncate "Command timed out. Marked as Blocked." =
      "Command timed out. Marked as Blocked." := by decide
  simp only [ExecutionAgent.run, h1, h2]
  simp [ht, pyOr]

/-- Witness for claim C4: a concrete timed-out captured run. -/
theorem claim4_timeout_blocked_witness :
    (ExecutionAgent.run
        ⟨ExecutionAgent.StreamOutcome.timeout, ExecutionAgent.TtyOutcome.finished 0,
         "", "", "", fun _ => ""⟩
        true "mytool" "p" "s").1 =
      ⟨"Blocked", "Command timed out. Marked as Blocked.", "s", 124⟩ :=
  (claim4_timeout_blocked
    ⟨ExecutionAgent.StreamOutcome.timeout, ExecutionAgent.TtyOutcome.finished 0,
     "", "", "", fun _ => ""⟩
    true "mytool" "p" "s" (by decide) rfl).1

/-- Claim C5: a captured run that finished (no timeout) falls back to one
interactive re-run exactly when `requires_tty_fallback` holds of its return
code and buffered output, which in turn holds exactly when the return code is
non-zero and the lowercased output contains one of the stdio-incompatibility
phrases; the call performs exactly one streaming run and at most one TTY run,
and the interactive path adds no further runs (no recursion). -/
theorem claim5_tty_fallback (env : ExecutionAgent.ExecEnv) (ac : Bool)
    (command prompt session_id : String) (rc : Int) (output : String)
    (h1 : ExecutionAgent.command_prefers_tty
        (ExecutionAgent.build_command ac command prompt session_id) = false)
    (h2 : env.streamOutcome = ExecutionAgent.StreamOutcome.finished rc output) :
    (ExecutionAgent.run env ac command prompt session_id).2 =
        ⟨1, if ExecutionAgent.requires_tty_fallback rc output then 1 else 0⟩ ∧
      (ExecutionAgent.requires_tty_fallback rc output = true ↔
        rc ≠ 0 ∧ (ExecutionAgent.tty_phrases.any fun p =>
          pyContains (pyLowerS output) p) = true) := by
  constructor
  · simp only [ExecutionAgent.run, h1, h2]
    by_cases hf : ExecutionAgent.requires_tty_fallback rc output
    · simp [hf]
    · simp [hf]
  · unfold ExecutionAgent.requires_tty_fallback
    by_cases h : rc = 0
    · simp [h]
    · simp [h]

/-- Witness for claim C5: a concrete failed captured run whose output names a
stdio incompatibility, performing exactly one streaming and one TTY run. -/
theorem claim5_tty_fallback_witness :
    (ExecutionAgent.run
        ⟨ExecutionAgent.StreamOutcome.finished 1 "stdin is not a tty",
         ExecutionAgent.TtyOutcome.finished 0, "", "", "", fun _ => ""⟩
        true "mytool" "p" "").2 = ⟨1, 1⟩ := by
  have h := (claim5_tty_fallback
    ⟨ExecutionAgent.StreamOutcome.finished 1 "stdin is not a tty",
     ExecutionAgent.TtyOutcome.finished 0, "", "", "", fun _ => ""⟩
    true "mytool" "p" "" 1 "stdin is not a tty" (by decide) rfl).1
  rw [h]
  decide

theorem runIteration_new_task (pfx command : String) (engine : MintPipeline.EngineFn)
    (row : RowState) (st : MintPipeline.LoopState)
    (h1 : row.prompt ≠ "") (h2 : row.ticket = "") (h3 : pyStrip row.status ≠ "Approved") :
    MintPipeline.runIteration pfx command engine row st =
      ⟨[MintPipeline.DriverEvent.updateColumns st.row_number
          [("C", SummaryAgent.summarize row.prompt), ("D", "Ongoing")],
        MintPipeline.DriverEvent.engineRun command (joinPrefix pfx row.prompt) "",
        MintPipeline.DriverEvent.updateColumns st.row_number
          (MintPipeline.resultUpdates (engine command (joinPrefix pfx row.prompt) ""))],
       ⟨st.row_number + 1, st.executed_rows + 1, st.archived_rows⟩, none⟩ := by
  unfold MintPipeline.runIteration
  rw [if_neg h1, if_neg h3, if_pos h2]

/-- Counterexample to claim C3 as stated. First conjunct: a row with
non-empty prompt and empty ticket but status Approved is archived — the
Execution Engine is not invoked and no provisional summary is written,
contradicting the claim's unconditional promise for such rows. Second
conjunct: for a whitespace-only (hence non-empty) prompt, the provisional
ticket the driver persists is the empty string, contradicting the claim that
a first execution always leaves a non-empty persisted ticket. -/
theorem claim3_counterexample :
    (MintPipeline.runIteration "" "c" engC ⟨"p", "", "Approved", "", "", ""⟩ ⟨2, 0, 0⟩).events =
        [MintPipeline.DriverEvent.archiveAndShift 2] ∧
      (MintPipeline.runIteration "" "c" engC ⟨" ", "", "", "", "", ""⟩ ⟨2, 0, 0⟩).events =
        [MintPipeline.DriverEvent.updateColumns 2 [("C", ""), ("D", "Ongoing")],
         MintPipeline.DriverEvent.engineRun "c" "" "",
         MintPipeline.DriverEvent.updateColumns 2 [("D", "Completed"), ("F", "")]] ∧
      SummaryAgent.summarize " " = "" := by
  decide

/-- Amended claim C3: for every row with a non-empty prompt, an empty ticket
and a status other than Approved, the driver persists the provisional ticket
summary together with status Ongoing before invoking the Execution Engine
with no prior session id and the prefix-joined prompt, then persists the
result and advances by one position with the executed counter incremented;
whenever the prompt contains any non-whitespace character the persisted
provisional ticket is non-empty. -/
theorem claim3_amended_new_task (pfx command : String) (engine : MintPipeline.EngineFn)
    (row : RowState) (st : MintPipeline.LoopState)
    (h1 : row.prompt ≠ "") (h2 : row.ticket = "") (h3 : pyStrip row.status ≠ "Approved") :
    (MintPipeline.runIteration pfx command engine row st).events =
        [MintPipeline.DriverEvent.updateColumns st.row_number
           [("C", SummaryAgent.summarize row.prompt), ("D", "Ongoing")],
         MintPipeline.DriverEvent.engineRun command (joinPrefix pfx row.prompt) "",
         MintPipeline.DriverEvent.updateColumns st.row_number
           (MintPipeline.resultUpdates (engine command (joinPrefix pfx row.prompt) ""))] ∧
      (MintPipeline.runIteration pfx command engine row st).next =
        ⟨st.row_number + 1, st.executed_rows + 1, st.archived_rows⟩ ∧
      (MintPipeline.runIteration pfx command engine row st).finished = none ∧
      (collapseL row.prompt.data ≠ [] → SummaryAgent.summarize row.prompt ≠ "") := by
  rw [runIteration_new_task pfx command engine row st h1 h2 h3]
  refine ⟨rfl, rfl, rfl, ?_⟩
  intro hc hsum
  have : SummaryAgent.summarizeL row.prompt.data = [] := congrArg String.data hsum
  exact summarizeL_ne_nil row.prompt.data hc this

/-- Witness for the amended claim C3 at the spec's new-task scenario row. -/
theorem claim3_amended_new_task_witness : SummaryAgent.summarize "Fix bug" ≠ "" :=
  (claim3_amended_new_task "" "c" engC ⟨"Fix bug", "", "", "", "", ""⟩ ⟨2, 0, 0⟩
    (by decide) rfl (by decide)).2.2.2 (by decide)

/-- Counterexample to claim C7 as stated: on a resumed row whose `user_input`
is the non-empty whitespace-only string, the engine is invoked with the
prefix-join of the original prompt, which differs from the prefix-join of the
row's user_input that the claim demands for every non-empty user_input. -/
theorem claim7_counterexample :
    (MintPipeline.runIteration "" "c" engC ⟨"p", "t", "Ongoing", " ", "", "s"⟩ ⟨2, 0, 0⟩).events =
        [MintPipeline.DriverEvent.engineRun "c" (joinPrefix "" "p") "s",
         MintPipeline.DriverEvent.updateColumns 2 [("D", "Completed"), ("F", "")]] ∧
      (" " : String) ≠ "" ∧
      joinPrefix "" " " ≠ joinPrefix "" "p" := by
  decide

/-- Amended claim C7: for every row with a non-empty prompt, a non-empty
ticket and (stripped) status Ongoing, the Execution Engine is invoked with
the row's existing session id and the configured prefix joined ahead of the
trimmed user_input when that is non-empty after trimming, else ahead of the
original prompt; afterwards the result is persisted, the executed counter is
incremented and the driver advances exactly one position. New executions
(empty ticket, not Approved) receive the same prefix-joined prompt. -/
theorem claim7_amended_resume (pfx command : String) (engine : MintPipeline.EngineFn)
    (row : RowState) (st : MintPipeline.LoopState)
    (h1 : row.prompt ≠ "") (h2 : row.ticket ≠ "") (h3 : pyStrip row.status = "Ongoing") :
    (MintPipeline.runIteration pfx command engine row st).events =
        [MintPipeline.DriverEvent.engineRun command
           (joinPrefix pfx
             (if pyStrip row.user_input ≠ "" then pyStrip row.user_input else row.prompt))
           row.session_id,
         MintPipeline.DriverEvent.updateColumns st.row_number
           (MintPipeline.resultUpdates (engine command
             (joinPrefix pfx
               (if pyStrip row.user_input ≠ "" then pyStrip row.user_input else row.prompt))
             row.session_id))] ∧
      (MintPipeline.runIteration pfx command engine row st).next =
        ⟨st.row_number + 1, st.executed_rows + 1, st.archived_rows⟩ ∧
      (∀ row2 : RowState, row2.prompt ≠ "" → row2.ticket = "" →
        pyStrip row2.status ≠ "Approved" →
        MintPipeline.DriverEvent.engineRun command (joinPrefix pfx row2.prompt) "" ∈
          (MintPipeline.runIteration pfx command engine row2 st).events) := by
  have hne : pyStrip row.status ≠ "Approved" := by
    rw [h3]
    decide
  have hrun : MintPipeline.runIteration pfx command engine row st =
      ⟨[MintPipeline.DriverEvent.engineRun command
          (joinPrefix pfx
            (if pyStrip row.user_input ≠ "" then pyStrip row.user_input else row.prompt))
          row.session_id,
        MintPipeline.DriverEvent.updateColumns st.row_number
          (MintPipeline.resultUpdates (engine command
            (joinPrefix pfx
              (if pyStrip row.user_input ≠ "" then pyStrip row.user_input else row.prompt))
            row.session_id))],
       ⟨st.row_number + 1, st.executed_rows + 1, st.archived_rows⟩, none⟩ := by
    unfold MintPipeline.runIteration
    rw [if_neg h1, if_neg hne, if_neg h2, h3, if_pos rfl]
  rw [hrun]
  refine ⟨rfl, rfl, ?_⟩
  intro row2 g1 g2 g3
  rw [runIteration_new_task pfx command engine row2 st g1 g2 g3]
  simp

/-- Witness for the amended claim C7 at the spec's resume scenario row. -/
theorem claim7_amended_resume_witness :
    (MintPipeline.runIteration "go" "c" engC
        ⟨"p", "t", "Ongoing", "continue", "", "abc"⟩ ⟨2, 1, 0⟩).events =
      [MintPipeline.DriverEvent.engineRun "c" "go continue" "abc",
       MintPipeline.DriverEvent.updateColumns 2 [("D", "Completed"), ("F", "")]] := by
  have h := (claim7_amended_resume "go" "c" engC
    ⟨"p", "t", "Ongoing", "continue", "", "abc"⟩ ⟨2, 1, 0⟩
    (by decide) (by decide) (by decide)).1
  rw [h]
  decide

/-- Counterexample to claim C6 as stated: with auto-close on, no placeholder
in the template and a supplied session id, the code emits the
non-interactive subcommand first and the resume directive after it, while the
claim's construction (resume directive preceding the subcommand) produces a
different string. -/
theorem claim6_counterexample :
    ExecutionAgent.build_command true "codex" "p" "abc" = "codex exec resume abc \"p\"" ∧
      ExecutionAgent.build_command_claimed true "codex" "p" "abc" =
        "codex resume abc exec \"p\"" ∧
      ExecutionAgent.build_command true "codex" "p" "abc" ≠
        ExecutionAgent.build_command_claimed true "codex" "p" "abc" := by
  decide

theorem str_reassoc_exec_resume (c s e : String) :
    c ++ " exec resume " ++ s ++ " \"" ++ e ++ "\"" =
      c ++ " exec" ++ (" resume " ++ s) ++ " " ++ ("\"" ++ e ++ "\"") := by
  apply String.ext
  simp only [String.data_append]
  simp [List.append_assoc]

theorem str_reassoc_exec (c e : String) :
    c ++ " exec \"" ++ e ++ "\"" = c ++ " exec" ++ "" ++ " " ++ ("\"" ++ e ++ "\"") := by
  apply String.ext
  simp only [String.data_append]
  simp [List.append_assoc]

theorem str_reassoc_resume (c s e : String) :
    c ++ " resume " ++ s ++ " \"" ++ e ++ "\"" =
      c ++ (" resume " ++ s) ++ " " ++ ("\"" ++ e ++ "\"") := by
  apply String.ext
  simp only [String.data_append]
  simp [List.append_assoc]

theorem str_reassoc_quoted (c e : String) :
    c ++ " \"" ++ e ++ "\"" = c ++ "" ++ " " ++ ("\"" ++ e ++ "\"") := by
  apply String.ext
  simp only [String.data_append]
  simp [List.append_assoc]

/-- Amended claim C6: `build_command` follows the construction of
`build_command_described` — placeholder substitution with a trailing resume
directive, or (without placeholders) the auto-close subcommand followed by
the optional resume directive, or the optional resume directive alone, each
ahead of the quoted escaped prompt; auto-close applies only when the template
is not already a non-interactive invocation. -/
theorem claim6_amended_build (ac : Bool) (command prompt session_id : String) :
    ExecutionAgent.build_command ac command prompt session_id =
      ExecutionAgent.build_command_described ac command prompt session_id := by
  unfold ExecutionAgent.build_command ExecutionAgent.build_command_described
  by_cases h1 : pyContains command "{prompt}" = true
  · rw [if_pos h1, if_pos h1]
  · rw [if_neg h1, if_neg h1]
    by_cases h2 : (ac && !(ExecutionAgent.is_noninteractive_agent_command
        (pyLowerS (pyStrip command)))) = true
    · rw [if_pos h2, if_pos h2]
      by_cases h3 : session_id ≠ ""
      · rw [if_pos h3, if_pos h3]
        exact str_reassoc_exec_resume command session_id (ExecutionAgent.escape prompt)
      · rw [if_neg h3, if_neg h3]
        exact str_reassoc_exec command (ExecutionAgent.escape prompt)
    · rw [if_neg h2, if_neg h2]
      by_cases h3 : session_id ≠ ""
      · rw [if_pos h3, if_pos h3]
        exact str_reassoc_resume command session_id (ExecutionAgent.escape prompt)
      · rw [if_neg h3, if_neg h3]
        exact str_reassoc_quoted command (ExecutionAgent.escape prompt)
